import Mathlib

/-!
Shallow embedding of `main.go` of cert-manager-webhook-gandi.

The Go code is a cert-manager ACME DNS-01 webhook solver for Gandi LiveDNS.
External collaborators (JSON unmarshalling, the Kubernetes secret store and
the Gandi LiveDNS client) are modelled as explicit function parameters /
oracles; everything in `main.go` itself is translated directly.
-/

namespace GandiWebhook

/-! ### Go string primitives used by the source

`strings.Split`, `strings.Join`, `strings.Trim(s, ".")` and
`strings.TrimSuffix` with the exact Go semantics (in particular
`Split("", ".") = [""]` and `TrimSuffix` removes at most one copy of the
suffix). -/

/-- Go `strings.Split(s, ".")` on the character list: splitting on every
`'.'`, keeping empty fields, and yielding `[""]` for the empty string. -/
def goSplitDotsAux : List Char → List Char → List String
  | [], acc => [String.mk acc.reverse]
  | c :: rest, acc =>
    if c = '.' then String.mk acc.reverse :: goSplitDotsAux rest []
    else goSplitDotsAux rest (c :: acc)

/-- Go `strings.Split(s, ".")`. -/
def goSplitDots (s : String) : List String := goSplitDotsAux s.data []

/-- Go `strings.Join(l, sep)`. -/
def goJoin (sep : String) : List String → String
  | [] => ""
  | x :: xs => xs.foldl (fun acc y => acc ++ sep ++ y) x

/-- Go `strings.Trim(s, ".")`: remove all leading and trailing `'.'`
characters. -/
def goTrimDots (s : String) : String :=
  String.mk (((s.data.dropWhile (· = '.')).reverse.dropWhile (· = '.')).reverse)

/-- Go `strings.TrimSuffix(s, suffix)`: remove one trailing copy of
`suffix` when present (character-level, as Go's `strings.HasSuffix` +
reslicing). -/
def goTrimSuffix (s suffix : String) : String :=
  if suffix.data.isSuffixOf s.data then
    String.mk (s.data.take (s.data.length - suffix.data.length))
  else s

/-! ### Data model (`main.go` types and the external types it uses) -/

/-- Type `cmmeta.SecretKeySelector`: the part used by the code — a secret name
(`LocalObjectReference.Name`) and a data key. -/
structure SecretKeySelector where
  name : String
  key : String
deriving Repr, DecidableEq

/-- Type `gandiDNSProviderConfig` (the solver config decoded from the per-issuer
JSON). -/
structure gandiDNSProviderConfig where
  apiKeySecretRef : SecretKeySelector
deriving Repr, DecidableEq

/-- The Go zero value of `gandiDNSProviderConfig` (empty struct literal). -/
def gandiDNSProviderConfig.zero : gandiDNSProviderConfig := ⟨⟨"", ""⟩⟩

/-- Type `v1alpha1.ChallengeRequest`: the fields `main.go` reads. `config` is the
raw per-issuer JSON (`ch.Config`), `none` when absent. -/
structure ChallengeRequest where
  resourceNamespace : String
  resolvedZone : String
  resolvedFQDN : String
  key : String
  config : Option String
deriving Repr, DecidableEq

/-- A Kubernetes secret as the code uses it: its `Data` map,
key → value bytes (bytes kept as a string, as Go converts them). -/
structure Secret where
  data : List (String × String)
deriving Repr, DecidableEq

/-- Type `config.Config` of go-gandi: the fields set by `main.go`. -/
structure ClientConfig where
  apiKey : String
  debug : Bool
  dryRun : Bool
deriving Repr, DecidableEq

/-- A Gandi LiveDNS record, restricted to the field the code reads
(`RrsetValues`). -/
structure DNSRecord where
  rrsetValues : List String
deriving Repr, DecidableEq

/-- One call issued to the Gandi LiveDNS client. -/
inductive ProviderCall where
  | lookup (root sub rtype : String)
  | create (root sub rtype : String) (ttl : Nat) (values : List String)
  | update (root sub rtype : String) (ttl : Nat) (values : List String)
  | delete (root sub rtype : String)
deriving Repr, DecidableEq

/-- The Gandi LiveDNS client operations used by the code, as response
oracles (`gandi.NewLiveDNSClient(cfg)` is modelled as a function
`ClientConfig → GandiClient` supplied from outside). -/
structure GandiClient where
  getRecord : String → String → String → Except String DNSRecord
  createRecord : String → String → String → Nat → List String → Except String Unit
  updateRecord : String → String → String → Nat → List String → Except String Unit
  deleteRecord : String → String → String → Except String Unit

/-- Function `json.Unmarshal` into `gandiDNSProviderConfig`, abstract: raw bytes to
either a decode error or the decoded struct. -/
abbrev Unmarshal := String → Except String gandiDNSProviderConfig

/-- The Kubernetes secret store: `namespace → name → secret` or a lookup
error (`c.client.CoreV1().Secrets(namespace).Get(..., secretName, ...)`). -/
abbrev SecretStore := String → String → Except String Secret

/-- Function `gandi.NewLiveDNSClient`, abstract. -/
abbrev NewClient := ClientConfig → GandiClient

/-- Constant `GandiMinTtl = 300`. -/
def GandiMinTtl : Nat := 300

/-! ### The functions of `main.go` -/

/-- Function `extractRootAndSubDomain(fqdn, entry)`.  The Go function indexes
`parts[len(parts)-2]`, which panics when the dot-trimmed `fqdn` has fewer
than two labels; the embedding returns `none` exactly there.  On success it
returns `(domain, subdomain, err)` with `err` the Go `error` result
(literally `nil`). -/
def extractRootAndSubDomain (fqdn entry : String) :
    Option (String × String × Option String) :=
  let parts := goSplitDots (goTrimDots fqdn)
  if h : 2 ≤ parts.length then
    let domain := parts.get ⟨parts.length - 2, by omega⟩ ++ "." ++
      parts.get ⟨parts.length - 1, by omega⟩
    some (domain,
      goJoin "." (goTrimDots entry :: parts.take (parts.length - 2)),
      none)
  else none

/-- Function `loadConfig(cfgJSON)`. -/
def loadConfig (unmarshal : Unmarshal) :
    Option String → Except String gandiDNSProviderConfig
  | none => .ok gandiDNSProviderConfig.zero
  | some raw =>
    match unmarshal raw with
    | .error e => .error ("error decoding solver config: " ++ e)
    | .ok cfg => .ok cfg

/-- Function `getDomainAndEntry(ch)`: returns `(entry, domain)`. -/
def getDomainAndEntry (ch : ChallengeRequest) : String × String :=
  let entry := goTrimSuffix ch.resolvedFQDN ch.resolvedZone
  let entry := goTrimSuffix entry "."
  let domain := goTrimSuffix ch.resolvedZone "."
  (entry, domain)

/-- Function `getApiKey(cfg, namespace)`. -/
def getApiKey (secrets : SecretStore) (cfg : gandiDNSProviderConfig)
    (ns : String) : Except String String :=
  let secretName := cfg.apiKeySecretRef.name
  match secrets ns secretName with
  | .error e => .error ("unable to get secret `" ++ secretName ++ "`; " ++ e)
  | .ok sec =>
    match (sec.data.lookup cfg.apiKeySecretRef.key) with
    | none => .error ("key \"" ++ cfg.apiKeySecretRef.key ++
        "\" not found in secret \"" ++ secretName ++ "/" ++ ns ++ "\"")
    | some secBytes => .ok secBytes

/-- The `config.Config` value built in `Present`
(`Debug: false, DryRun: false`). -/
def presentClientConfig (apiKey : String) : ClientConfig :=
  { apiKey := apiKey, debug := false, dryRun := false }

/-- The `config.Config` value built in `CleanUp`
(`Debug: true, DryRun: false`). -/
def cleanUpClientConfig (apiKey : String) : ClientConfig :=
  { apiKey := apiKey, debug := true, dryRun := false }

/-- The record branch of `Present` (from `GetDomainRecordByNameAndType`
on): returns the list of provider calls issued and the Go `error` result. -/
def presentCore (client : GandiClient) (key root subdomain : String) :
    List ProviderCall × Except String Unit :=
  match client.getRecord root subdomain "TXT" with
  | .error _ =>
    match client.createRecord root subdomain "TXT" GandiMinTtl [key] with
    | .error e =>
      ([.lookup root subdomain "TXT",
        .create root subdomain "TXT" GandiMinTtl [key]],
       .error ("unable to create TXT record: " ++ e))
    | .ok _ =>
      ([.lookup root subdomain "TXT",
        .create root subdomain "TXT" GandiMinTtl [key]], .ok ())
  | .ok record =>
    if goJoin "" record.rrsetValues ≠ "\"" ++ key ++ "\"" then
      match client.updateRecord root subdomain "TXT" GandiMinTtl [key] with
      | .error e =>
        ([.lookup root subdomain "TXT",
          .update root subdomain "TXT" GandiMinTtl [key]],
         .error ("unable to update TXT record: " ++ e))
      | .ok _ =>
        ([.lookup root subdomain "TXT",
          .update root subdomain "TXT" GandiMinTtl [key]], .ok ())
    else
      ([.lookup root subdomain "TXT"], .ok ())

/-- Method `Present(ch)`: `none` models the Go panic inside
`extractRootAndSubDomain`; otherwise the trace of provider calls and the
returned `error`. -/
def present (unmarshal : Unmarshal) (secrets : SecretStore)
    (newClient : NewClient) (ch : ChallengeRequest) :
    Option (List ProviderCall × Except String Unit) :=
  match loadConfig unmarshal ch.config with
  | .error e => some ([], .error ("unable to load config: " ++ e))
  | .ok cfg =>
  match getApiKey secrets cfg ch.resourceNamespace with
  | .error e => some ([], .error ("unable to get API key: " ++ e))
  | .ok apiKey =>
  let gandiClient := newClient (presentClientConfig apiKey)
  let ed := getDomainAndEntry ch
  match extractRootAndSubDomain ed.2 ed.1 with
  | none => none
  | some (_, _, some e) =>
    some ([], .error ("unable to mange provided domain : " ++ e))
  | some (root, subdomain, none) =>
    some (presentCore gandiClient ch.key root subdomain)

/-- The record branch of `CleanUp`. -/
def cleanUpCore (client : GandiClient) (root subdomain : String) :
    List ProviderCall × Except String Unit :=
  match client.getRecord root subdomain "TXT" with
  | .error _ => ([.lookup root subdomain "TXT"], .ok ())
  | .ok _ =>
    match client.deleteRecord root subdomain "TXT" with
    | .error e =>
      ([.lookup root subdomain "TXT", .delete root subdomain "TXT"],
       .error ("unable to delete TXT record: " ++ e))
    | .ok _ =>
      ([.lookup root subdomain "TXT", .delete root subdomain "TXT"], .ok ())

/-- Method `CleanUp(ch)`. -/
def cleanUp (unmarshal : Unmarshal) (secrets : SecretStore)
    (newClient : NewClient) (ch : ChallengeRequest) :
    Option (List ProviderCall × Except String Unit) :=
  match loadConfig unmarshal ch.config with
  | .error e => some ([], .error ("unable to load config: " ++ e))
  | .ok cfg =>
  match getApiKey secrets cfg ch.resourceNamespace with
  | .error e => some ([], .error ("unable to get API key: " ++ e))
  | .ok apiKey =>
  let gandiClient := newClient (cleanUpClientConfig apiKey)
  let ed := getDomainAndEntry ch
  match extractRootAndSubDomain ed.2 ed.1 with
  | none => none
  | some (_, _, some e) =>
    some ([], .error ("unable to mange provided domain : " ++ e))
  | some (root, subdomain, none) =>
    some (cleanUpCore gandiClient root subdomain)

/-! ### Spec-side definitions (for refinement-style comparisons) -/

/-- From the spec: `strip_suffix(f, z)` — `f` with the suffix `z` removed
(used under the premise that `f` ends with `z`). -/
def spec_stripSuffix (f z : String) : String :=
  String.mk (f.data.take (f.data.length - z.data.length))

/-- From the spec: `strip_trailing_dot(s)` — `s` with a trailing dot
removed when present. -/
def spec_stripTrailingDot (s : String) : String :=
  if s.data.getLast? = some '.' then String.mk (s.data.dropLast) else s

/-- Variant of `Present` with the `extractRootAndSubDomain` error branch removed: the
returned error component is ignored. Used to state that the
`"unable to mange provided domain"` branch of `Present` is unreachable. -/
def presentNoDomainError (unmarshal : Unmarshal) (secrets : SecretStore)
    (newClient : NewClient) (ch : ChallengeRequest) :
    Option (List ProviderCall × Except String Unit) :=
  match loadConfig unmarshal ch.config with
  | .error e => some ([], .error ("unable to load config: " ++ e))
  | .ok cfg =>
  match getApiKey secrets cfg ch.resourceNamespace with
  | .error e => some ([], .error ("unable to get API key: " ++ e))
  | .ok apiKey =>
  let gandiClient := newClient (presentClientConfig apiKey)
  let ed := getDomainAndEntry ch
  match extractRootAndSubDomain ed.2 ed.1 with
  | none => none
  | some (root, subdomain, _) =>
    some (presentCore gandiClient ch.key root subdomain)

/-- Variant of `CleanUp` with the `extractRootAndSubDomain` error branch removed. -/
def cleanUpNoDomainError (unmarshal : Unmarshal) (secrets : SecretStore)
    (newClient : NewClient) (ch : ChallengeRequest) :
    Option (List ProviderCall × Except String Unit) :=
  match loadConfig unmarshal ch.config with
  | .error e => some ([], .error ("unable to load config: " ++ e))
  | .ok cfg =>
  match getApiKey secrets cfg ch.resourceNamespace with
  | .error e => some ([], .error ("unable to get API key: " ++ e))
  | .ok apiKey =>
  let gandiClient := newClient (cleanUpClientConfig apiKey)
  let ed := getDomainAndEntry ch
  match extractRootAndSubDomain ed.2 ed.1 with
  | none => none
  | some (root, subdomain, _) =>
    some (cleanUpCore gandiClient root subdomain)

/-- Whether a (non-panicking) run returned a Go error. -/
def runErrored (r : Option (List ProviderCall × Except String Unit)) : Bool :=
  match r with
  | some (_, .error _) => true
  | _ => false

/-- The spec's error taxonomy for `Present`: config decoding failed, or
credential resolution failed, or the reconciliation reached the provider
and the create call (absent case) or the update call (mismatch case)
failed.  A lookup failure alone is never a cause. -/
def presentFailureCause (u : Unmarshal) (s : SecretStore) (n : NewClient)
    (ch : ChallengeRequest) : Prop :=
  (∃ e, loadConfig u ch.config = .error e) ∨
  (∃ cfg e, loadConfig u ch.config = .ok cfg ∧
    getApiKey s cfg ch.resourceNamespace = .error e) ∨
  (∃ cfg apiKey root sub,
    loadConfig u ch.config = .ok cfg ∧
    getApiKey s cfg ch.resourceNamespace = .ok apiKey ∧
    extractRootAndSubDomain (getDomainAndEntry ch).2 (getDomainAndEntry ch).1 =
      some (root, sub, none) ∧
    (((∃ le, (n (presentClientConfig apiKey)).getRecord root sub "TXT" =
          .error le) ∧
      (∃ e, (n (presentClientConfig apiKey)).createRecord root sub "TXT"
          GandiMinTtl [ch.key] = .error e)) ∨
     (∃ rec, (n (presentClientConfig apiKey)).getRecord root sub "TXT" =
          .ok rec ∧
      goJoin "" rec.rrsetValues ≠ "\"" ++ ch.key ++ "\"" ∧
      (∃ e, (n (presentClientConfig apiKey)).updateRecord root sub "TXT"
          GandiMinTtl [ch.key] = .error e))))

/-! ### Concrete fixtures (used by witness theorems) -/

/-- A JSON decoder fixture: every raw string decodes to a fixed config
naming secret `"gandi-credentials"`, key `"api-token"`. -/
def fixUnmarshal : Unmarshal :=
  fun _ => .ok ⟨⟨"gandi-credentials", "api-token"⟩⟩

/-- A JSON decoder fixture on which decoding always fails. -/
def fixUnmarshalBad : Unmarshal :=
  fun _ => .error "invalid character"

/-- A secret store fixture holding the key `"api-token"` in
`"gandi-credentials"` in any namespace. -/
def fixSecrets : SecretStore :=
  fun _ name =>
    if name = "gandi-credentials" then .ok ⟨[("api-token", "SECRETKEY")]⟩
    else .error "secret not found"

/-- A Gandi client fixture: the TXT record exists and holds `"\"abc123\""`;
all mutations succeed. -/
def fixClientFound : GandiClient where
  getRecord := fun _ _ _ => .ok ⟨["\"abc123\""]⟩
  createRecord := fun _ _ _ _ _ => .ok ()
  updateRecord := fun _ _ _ _ _ => .ok ()
  deleteRecord := fun _ _ _ => .ok ()

/-- A Gandi client fixture: no record exists; all mutations succeed. -/
def fixClientAbsent : GandiClient where
  getRecord := fun _ _ _ => .error "404"
  createRecord := fun _ _ _ _ _ => .ok ()
  updateRecord := fun _ _ _ _ _ => .ok ()
  deleteRecord := fun _ _ _ => .ok ()

/-- The challenge of the spec's scenario: zone `"example.com."`, FQDN
`"_acme-challenge.foo.example.com."`, key `"abc123"`. -/
def fixChallenge : ChallengeRequest :=
  { resourceNamespace := "default"
    resolvedZone := "example.com."
    resolvedFQDN := "_acme-challenge.foo.example.com."
    key := "abc123"
    config := some "cfg-json" }

/-! ### Helper lemmas -/

/-- Joining the final two elements of a list with `"."` is indexing at
`length - 2` and `length - 1` around a dot, as the code does. -/
theorem goJoin_drop_length_sub_two (l : List String) (h : 2 ≤ l.length) :
    goJoin "." (l.drop (l.length - 2)) =
      l.get ⟨l.length - 2, by omega⟩ ++ "." ++ l.get ⟨l.length - 1, by omega⟩ := by
  have h2 : l.length - 2 < l.length := by omega
  have h1 : l.length - 1 < l.length := by omega
  rw [List.drop_eq_getElem_cons h2]
  have e1 : l.length - 2 + 1 = l.length - 1 := by omega
  rw [e1, List.drop_eq_getElem_cons h1]
  have e2 : l.length - 1 + 1 = l.length := by omega
  rw [e2, List.drop_length]
  simp [goJoin]

/-- A singleton `[c]` is a suffix of `l` exactly when `l` ends in `c`. -/
theorem singleton_isSuffixOf_iff (c : Char) (l : List Char) :
    [c].isSuffixOf l = true ↔ l.getLast? = some c := by
  rw [List.isSuffixOf, List.getLast?_eq_head?_reverse]
  cases hr : l.reverse with
  | nil => simp [List.isPrefixOf]
  | cons d t => simp [List.isPrefixOf, BEq.beq, eq_comm]

/-- Go's `strings.TrimSuffix(s, ".")` is the spec's `strip_trailing_dot`. -/
theorem goTrimSuffix_dot (s : String) :
    goTrimSuffix s "." = spec_stripTrailingDot s := by
  unfold goTrimSuffix spec_stripTrailingDot
  by_cases h : s.data.getLast? = some '.'
  · rw [if_pos (by rw [show ("." : String).data = ['.'] from rfl,
        singleton_isSuffixOf_iff]; exact h), if_pos h]
    congr 1
    rw [show ("." : String).data.length = 1 from rfl]
    exact (List.dropLast_eq_take s.data).symm
  · rw [if_neg (by rw [show ("." : String).data = ['.'] from rfl,
        singleton_isSuffixOf_iff]; exact h), if_neg h]

/-! ### The claims -/

/-- C1: for every domain whose dot-trimmed form has at least two
dot-separated labels and every entry, `extractRootAndSubDomain` returns
root = the last two labels of the domain dot-joined, and subdomain = the
dot-trimmed entry followed by all domain labels before the last two, in
original order, dot-joined (and a nil error). -/
theorem extractRootAndSubDomain_root_last_two (d e : String)
    (h : 2 ≤ (goSplitDots (goTrimDots d)).length) :
    extractRootAndSubDomain d e =
      some (goJoin "." ((goSplitDots (goTrimDots d)).drop
              ((goSplitDots (goTrimDots d)).length - 2)),
            goJoin "." (goTrimDots e :: (goSplitDots (goTrimDots d)).take
              ((goSplitDots (goTrimDots d)).length - 2)),
            none) := by
  unfold extractRootAndSubDomain
  rw [dif_pos h, goJoin_drop_length_sub_two _ h]

/-- C1 witness: the spec's own example, domain `"a.b.example.com"`. -/
theorem extractRootAndSubDomain_root_last_two_witness :
    2 ≤ (goSplitDots (goTrimDots "a.b.example.com")).length ∧
    extractRootAndSubDomain "a.b.example.com" "entry" =
      some ("example.com", "entry.a.b", none) :=
  ⟨by decide,
   (extractRootAndSubDomain_root_last_two "a.b.example.com" "entry"
     (by decide)).trans rfl⟩

/-- C2: whenever `ResolvedFQDN` ends with `ResolvedZone`,
`getDomainAndEntry` returns entry = the FQDN with the zone suffix removed
and then a trailing dot removed, and domain = the zone with its trailing
dot removed. -/
theorem getDomainAndEntry_spec (ch : ChallengeRequest)
    (h : ch.resolvedZone.data.isSuffixOf ch.resolvedFQDN.data = true) :
    getDomainAndEntry ch =
      (spec_stripTrailingDot (spec_stripSuffix ch.resolvedFQDN ch.resolvedZone),
       spec_stripTrailingDot ch.resolvedZone) := by
  simp only [getDomainAndEntry, goTrimSuffix_dot]
  unfold goTrimSuffix spec_stripSuffix
  rw [if_pos h]

/-- C2 witness: the spec's scenario zone/FQDN pair. -/
theorem getDomainAndEntry_spec_witness :
    ("example.com." : String).data.isSuffixOf
      ("_acme-challenge.foo.example.com." : String).data = true ∧
    getDomainAndEntry fixChallenge = ("_acme-challenge.foo", "example.com") :=
  ⟨by decide, (getDomainAndEntry_spec fixChallenge (by decide)).trans rfl⟩

/-- C7: `loadConfig` returns the zero-value config and no error on an
absent per-issuer config; a decode error (wrapped) when the raw bytes fail
to unmarshal; and the decoded struct on success. -/
theorem loadConfig_spec (unmarshal : Unmarshal) (raw e : String)
    (cfg : gandiDNSProviderConfig) :
    loadConfig unmarshal none = .ok gandiDNSProviderConfig.zero ∧
    (unmarshal raw = .error e →
      loadConfig unmarshal (some raw) =
        .error ("error decoding solver config: " ++ e)) ∧
    (unmarshal raw = .ok cfg → loadConfig unmarshal (some raw) = .ok cfg) := by
  refine ⟨rfl, ?_, ?_⟩ <;> intro h <;> simp [loadConfig, h]

/-- C7 witness: the three branches at concrete decoders. -/
theorem loadConfig_spec_witness :
    loadConfig fixUnmarshal none = .ok gandiDNSProviderConfig.zero ∧
    loadConfig fixUnmarshalBad (some "bad-json") =
      .error ("error decoding solver config: " ++ "invalid character") ∧
    loadConfig fixUnmarshal (some "cfg-json") =
      .ok ⟨⟨"gandi-credentials", "api-token"⟩⟩ :=
  ⟨(loadConfig_spec fixUnmarshal "cfg-json" "x" ⟨⟨"gandi-credentials", "api-token"⟩⟩).1,
   (loadConfig_spec fixUnmarshalBad "bad-json" "invalid character"
      gandiDNSProviderConfig.zero).2.1 rfl,
   (loadConfig_spec fixUnmarshal "cfg-json" "x"
      ⟨⟨"gandi-credentials", "api-token"⟩⟩).2.2 rfl⟩

/-- C8: `getApiKey` fails with a wrapped secret-lookup error when the
secret cannot be fetched; fails with a "key not found" error naming the
secret's name and namespace when the data map lacks the configured key;
and otherwise returns exactly the bytes stored under that key. -/
theorem getApiKey_spec (secrets : SecretStore) (cfg : gandiDNSProviderConfig)
    (ns e v : String) (sec : Secret) :
    (secrets ns cfg.apiKeySecretRef.name = .error e →
      getApiKey secrets cfg ns =
        .error ("unable to get secret `" ++ cfg.apiKeySecretRef.name ++
          "`; " ++ e)) ∧
    (secrets ns cfg.apiKeySecretRef.name = .ok sec →
      sec.data.lookup cfg.apiKeySecretRef.key = none →
      getApiKey secrets cfg ns =
        .error ("key \"" ++ cfg.apiKeySecretRef.key ++
          "\" not found in secret \"" ++ cfg.apiKeySecretRef.name ++ "/" ++
          ns ++ "\"")) ∧
    (secrets ns cfg.apiKeySecretRef.name = .ok sec →
      sec.data.lookup cfg.apiKeySecretRef.key = some v →
      getApiKey secrets cfg ns = .ok v) := by
  refine ⟨?_, ?_, ?_⟩ <;> intros <;> simp [getApiKey, *]

/-- C8 witness: the three branches against the secret-store fixture. -/
theorem getApiKey_spec_witness :
    getApiKey fixSecrets ⟨⟨"other", "api-token"⟩⟩ "default" =
      .error ("unable to get secret `" ++ "other" ++ "`; " ++
        "secret not found") ∧
    getApiKey fixSecrets ⟨⟨"gandi-credentials", "missing"⟩⟩ "default" =
      .error ("key \"" ++ "missing" ++ "\" not found in secret \"" ++
        "gandi-credentials" ++ "/" ++ "default" ++ "\"") ∧
    getApiKey fixSecrets ⟨⟨"gandi-credentials", "api-token"⟩⟩ "default" =
      .ok "SECRETKEY" :=
  ⟨(getApiKey_spec fixSecrets ⟨⟨"other", "api-token"⟩⟩ "default"
      "secret not found" "SECRETKEY" ⟨[]⟩).1 rfl,
   (getApiKey_spec fixSecrets ⟨⟨"gandi-credentials", "missing"⟩⟩ "default"
      "x" "SECRETKEY" ⟨[("api-token", "SECRETKEY")]⟩).2.1 rfl rfl,
   (getApiKey_spec fixSecrets ⟨⟨"gandi-credentials", "api-token"⟩⟩ "default"
      "x" "SECRETKEY" ⟨[("api-token", "SECRETKEY")]⟩).2.2 rfl rfl⟩

/-- Appending a final dot before `dropWhile (· = '.')` either leaves
nothing (when everything was dots) or tacks the dot onto the result. -/
theorem dropWhile_dot_append (t : List Char) :
    (t ++ ['.']).dropWhile (fun c => c = '.') =
      if t.dropWhile (fun c => c = '.') = [] then []
      else t.dropWhile (fun c => c = '.') ++ ['.'] := by
  induction t with
  | nil => simp
  | cons c cs ih =>
    by_cases hc : c = '.'
    · subst hc
      simpa using ih
    · simp [List.dropWhile_cons, hc]

/-- Function `goTrimDots` ignores one extra trailing dot. -/
theorem goTrimDots_snoc_dot (t : List Char) :
    goTrimDots (String.mk (t ++ ['.'])) = goTrimDots (String.mk t) := by
  unfold goTrimDots
  congr 1
  rw [show (String.mk (t ++ ['.'])).data = t ++ ['.'] from rfl,
    show (String.mk t).data = t from rfl, dropWhile_dot_append]
  by_cases h : t.dropWhile (fun c => decide (c = '.')) = []
  · rw [if_pos (by simpa using h), h]
  · rw [if_neg (by simpa using h), List.reverse_append]
    simp [List.dropWhile_cons]

/-- Removing the one trailing dot that `getDomainAndEntry` removes does not
change the dot-trimmed form. -/
theorem goTrimDots_goTrimSuffix_dot (s : String) :
    goTrimDots (goTrimSuffix s ".") = goTrimDots s := by
  rw [goTrimSuffix_dot]
  unfold spec_stripTrailingDot
  by_cases h : s.data.getLast? = some '.'
  · rw [if_pos h]
    have hsuf : ['.'].isSuffixOf s.data = true :=
      (singleton_isSuffixOf_iff _ _).2 h
    have hsfx : ['.'] <:+ s.data := by
      rwa [← List.isSuffixOf_iff_suffix]
    obtain ⟨t, ht⟩ := hsfx
    have hs : s = String.mk (t ++ ['.']) := by
      cases s with
      | mk l =>
        have hl : l = t ++ ['.'] := by simpa using ht.symm
        rw [hl]
    rw [hs, show (String.mk (t ++ ['.'])).data = t ++ ['.'] from rfl,
      List.dropLast_concat, goTrimDots_snoc_dot]
  · rw [if_neg h]

/-- When the dot-trimmed input has at least two labels,
`extractRootAndSubDomain` succeeds with a nil error. -/
theorem extract_isSome_of_labels (d e : String)
    (h : 2 ≤ (goSplitDots (goTrimDots d)).length) :
    ∃ root sub, extractRootAndSubDomain d e = some (root, sub, none) := by
  unfold extractRootAndSubDomain
  rw [dif_pos h]
  exact ⟨_, _, rfl⟩

/-- The Go `error` result of `extractRootAndSubDomain` is always `nil`. -/
theorem extract_err_eq_none (d e root sub : String) (err : Option String)
    (h : extractRootAndSubDomain d e = some (root, sub, err)) : err = none := by
  simp only [extractRootAndSubDomain] at h
  split at h
  · simp only [Option.some.injEq, Prod.mk.injEq] at h
    exact h.2.2.symm
  · simp at h

/-- Method `Present` never takes the `extractRootAndSubDomain` error branch. -/
theorem present_eq_noDomainError (u : Unmarshal) (s : SecretStore)
    (n : NewClient) (ch : ChallengeRequest) :
    present u s n ch = presentNoDomainError u s n ch := by
  rcases hl : loadConfig u ch.config with e | cfg
  · simp only [present, presentNoDomainError, hl]
  · rcases ha : getApiKey s cfg ch.resourceNamespace with e | apiKey
    · simp only [present, presentNoDomainError, hl, ha]
    · rcases hx : extractRootAndSubDomain (getDomainAndEntry ch).2
          (getDomainAndEntry ch).1 with _ | ⟨root, sub, err⟩
      · simp only [present, presentNoDomainError, hl, ha, hx]
      · cases extract_err_eq_none _ _ _ _ _ hx
        simp only [present, presentNoDomainError, hl, ha, hx]

/-- Method `CleanUp` never takes the `extractRootAndSubDomain` error branch. -/
theorem cleanUp_eq_noDomainError (u : Unmarshal) (s : SecretStore)
    (n : NewClient) (ch : ChallengeRequest) :
    cleanUp u s n ch = cleanUpNoDomainError u s n ch := by
  rcases hl : loadConfig u ch.config with e | cfg
  · simp only [cleanUp, cleanUpNoDomainError, hl]
  · rcases ha : getApiKey s cfg ch.resourceNamespace with e | apiKey
    · simp only [cleanUp, cleanUpNoDomainError, hl, ha]
    · rcases hx : extractRootAndSubDomain (getDomainAndEntry ch).2
          (getDomainAndEntry ch).1 with _ | ⟨root, sub, err⟩
      · simp only [cleanUp, cleanUpNoDomainError, hl, ha, hx]
      · cases extract_err_eq_none _ _ _ _ _ hx
        simp only [cleanUp, cleanUpNoDomainError, hl, ha, hx]

/-- Method `Present` cannot hit the out-of-range panic when the trimmed zone has
at least two labels. -/
theorem present_ne_none_of_labels (u : Unmarshal) (s : SecretStore)
    (n : NewClient) (ch : ChallengeRequest)
    (h : 2 ≤ (goSplitDots (goTrimDots ch.resolvedZone)).length) :
    present u s n ch ≠ none := by
  have h2 : 2 ≤ (goSplitDots (goTrimDots (getDomainAndEntry ch).2)).length := by
    rw [show (getDomainAndEntry ch).2 = goTrimSuffix ch.resolvedZone "." from rfl,
      goTrimDots_goTrimSuffix_dot]
    exact h
  obtain ⟨root, sub, hx⟩ :=
    extract_isSome_of_labels (getDomainAndEntry ch).2 (getDomainAndEntry ch).1 h2
  rcases hl : loadConfig u ch.config with e | cfg
  · simp [present, hl]
  · rcases ha : getApiKey s cfg ch.resourceNamespace with e | apiKey
    · simp [present, hl, ha]
    · simp [present, hl, ha, hx]

/-- Method `CleanUp` cannot hit the out-of-range panic when the trimmed zone has
at least two labels. -/
theorem cleanUp_ne_none_of_labels (u : Unmarshal) (s : SecretStore)
    (n : NewClient) (ch : ChallengeRequest)
    (h : 2 ≤ (goSplitDots (goTrimDots ch.resolvedZone)).length) :
    cleanUp u s n ch ≠ none := by
  have h2 : 2 ≤ (goSplitDots (goTrimDots (getDomainAndEntry ch).2)).length := by
    rw [show (getDomainAndEntry ch).2 = goTrimSuffix ch.resolvedZone "." from rfl,
      goTrimDots_goTrimSuffix_dot]
    exact h
  obtain ⟨root, sub, hx⟩ :=
    extract_isSome_of_labels (getDomainAndEntry ch).2 (getDomainAndEntry ch).1 h2
  rcases hl : loadConfig u ch.config with e | cfg
  · simp [cleanUp, hl]
  · rcases ha : getApiKey s cfg ch.resourceNamespace with e | apiKey
    · simp [cleanUp, hl, ha]
    · simp [cleanUp, hl, ha, hx]

/-- C9: `extractRootAndSubDomain` indexes at `length - 2`, so it is
undefined exactly when the dot-trimmed domain has fewer than two
dot-separated labels; `Present` and `CleanUp` avoid the undefined branch
whenever the trimmed `ResolvedZone` has at least two labels. -/
theorem extractRootAndSubDomain_partiality (d e : String) (u : Unmarshal)
    (s : SecretStore) (n : NewClient) (ch : ChallengeRequest)
    (h : 2 ≤ (goSplitDots (goTrimDots ch.resolvedZone)).length) :
    (extractRootAndSubDomain d e = none ↔
      (goSplitDots (goTrimDots d)).length < 2) ∧
    present u s n ch ≠ none ∧ cleanUp u s n ch ≠ none := by
  refine ⟨?_, present_ne_none_of_labels u s n ch h,
    cleanUp_ne_none_of_labels u s n ch h⟩
  unfold extractRootAndSubDomain
  by_cases hd : 2 ≤ (goSplitDots (goTrimDots d)).length
  · rw [dif_pos hd]
    simp
    omega
  · rw [dif_neg hd]
    simp
    omega

/-- C9 witness: `"com"` has a single label and is rejected; the scenario
zone `"example.com."` has two labels and `Present`/`CleanUp` run on it. -/
theorem extractRootAndSubDomain_partiality_witness :
    2 ≤ (goSplitDots (goTrimDots ("example.com." : String))).length ∧
    ((extractRootAndSubDomain "com" "x" = none ↔
      (goSplitDots (goTrimDots "com")).length < 2) ∧
    present fixUnmarshal fixSecrets (fun _ => fixClientFound) fixChallenge ≠
      none ∧
    cleanUp fixUnmarshal fixSecrets (fun _ => fixClientFound) fixChallenge ≠
      none) :=
  ⟨by decide,
   extractRootAndSubDomain_partiality "com" "x" fixUnmarshal fixSecrets
     (fun _ => fixClientFound) fixChallenge (by decide)⟩

/-- C10: `extractRootAndSubDomain` returns a nil error wherever it is
defined, so the `"unable to mange provided domain"` branches of `Present`
and `CleanUp` are unreachable: both functions coincide with the variants
from which that branch is removed. -/
theorem extractRootAndSubDomain_err_nil (d e root sub : String)
    (err : Option String) (u : Unmarshal) (s : SecretStore) (n : NewClient)
    (ch : ChallengeRequest)
    (h : extractRootAndSubDomain d e = some (root, sub, err)) :
    err = none ∧
    present u s n ch = presentNoDomainError u s n ch ∧
    cleanUp u s n ch = cleanUpNoDomainError u s n ch :=
  ⟨extract_err_eq_none d e root sub err h,
   present_eq_noDomainError u s n ch,
   cleanUp_eq_noDomainError u s n ch⟩

/-- C10 witness: the scenario split, and `Present`/`CleanUp` on the
fixtures. -/
theorem extractRootAndSubDomain_err_nil_witness :
    (none : Option String) = none ∧
    present fixUnmarshal fixSecrets (fun _ => fixClientAbsent) fixChallenge =
      presentNoDomainError fixUnmarshal fixSecrets (fun _ => fixClientAbsent)
        fixChallenge ∧
    cleanUp fixUnmarshal fixSecrets (fun _ => fixClientAbsent) fixChallenge =
      cleanUpNoDomainError fixUnmarshal fixSecrets (fun _ => fixClientAbsent)
        fixChallenge :=
  extractRootAndSubDomain_err_nil "example.com" "_acme-challenge.foo"
    "example.com" "_acme-challenge.foo" none fixUnmarshal fixSecrets
    (fun _ => fixClientAbsent) fixChallenge rfl

/-- Every branch of `presentCore` starts its trace with the TXT lookup. -/
theorem presentCore_fst_head (client : GandiClient) (key root sub : String) :
    (presentCore client key root sub).1.head? =
      some (.lookup root sub "TXT") := by
  unfold presentCore
  split
  · split <;> rfl
  · split
    · split <;> rfl
    · rfl

/-- Every branch of `cleanUpCore` starts its trace with the TXT lookup. -/
theorem cleanUpCore_fst_head (client : GandiClient) (root sub : String) :
    (cleanUpCore client root sub).1.head? = some (.lookup root sub "TXT") := by
  unfold cleanUpCore
  split
  · rfl
  · split <;> rfl

/-- C3: when the lookup in `Present` finds a record whose concatenated
values equal the double-quoted challenge key, `Present` issues no create
and no update call and succeeds; when they differ, it issues exactly one
update-record(root, subdomain, "TXT", 300, [Key]) call. -/
theorem present_idempotent_on_found (u : Unmarshal) (s : SecretStore)
    (n : NewClient) (ch : ChallengeRequest) (cfg : gandiDNSProviderConfig)
    (apiKey root sub : String) (record : DNSRecord)
    (h1 : loadConfig u ch.config = .ok cfg)
    (h2 : getApiKey s cfg ch.resourceNamespace = .ok apiKey)
    (h3 : extractRootAndSubDomain (getDomainAndEntry ch).2
        (getDomainAndEntry ch).1 = some (root, sub, none))
    (h4 : (n (presentClientConfig apiKey)).getRecord root sub "TXT" =
        .ok record) :
    (goJoin "" record.rrsetValues = "\"" ++ ch.key ++ "\"" →
      present u s n ch = some ([.lookup root sub "TXT"], .ok ())) ∧
    (goJoin "" record.rrsetValues ≠ "\"" ++ ch.key ++ "\"" →
      present u s n ch =
        some ([.lookup root sub "TXT",
               .update root sub "TXT" GandiMinTtl [ch.key]],
          match (n (presentClientConfig apiKey)).updateRecord root sub "TXT"
              GandiMinTtl [ch.key] with
          | .ok _ => .ok ()
          | .error e => .error ("unable to update TXT record: " ++ e))) := by
  constructor
  · intro hv
    simp [present, h1, h2, h3, presentCore, h4, hv]
  · intro hv
    rcases hu : (n (presentClientConfig apiKey)).updateRecord root sub "TXT"
        GandiMinTtl [ch.key] with e | _
    · simp [present, h1, h2, h3, presentCore, h4, hv, hu]
    · simp [present, h1, h2, h3, presentCore, h4, hv, hu]

/-- C3 witness: the scenario challenge with the record already holding
`"\"abc123\""` — `Present` only looks up and succeeds. -/
theorem present_idempotent_on_found_witness :
    present fixUnmarshal fixSecrets (fun _ => fixClientFound) fixChallenge =
      some ([.lookup "example.com" "_acme-challenge.foo" "TXT"], .ok ()) :=
  (present_idempotent_on_found fixUnmarshal fixSecrets
      (fun _ => fixClientFound) fixChallenge
      ⟨⟨"gandi-credentials", "api-token"⟩⟩ "SECRETKEY"
      "example.com" "_acme-challenge.foo" ⟨["\"abc123\""]⟩
      rfl rfl rfl rfl).1 rfl

/-- C5: `CleanUp` with an absent record issues no delete and succeeds;
with a present record it issues exactly one delete-record(root, subdomain,
"TXT") call no matter what the record holds, and a delete failure is
returned as a wrapped error. -/
theorem cleanUp_delete_behaviour (u : Unmarshal) (s : SecretStore)
    (n : NewClient) (ch : ChallengeRequest) (cfg : gandiDNSProviderConfig)
    (apiKey root sub : String)
    (h1 : loadConfig u ch.config = .ok cfg)
    (h2 : getApiKey s cfg ch.resourceNamespace = .ok apiKey)
    (h3 : extractRootAndSubDomain (getDomainAndEntry ch).2
        (getDomainAndEntry ch).1 = some (root, sub, none)) :
    (∀ err, (n (cleanUpClientConfig apiKey)).getRecord root sub "TXT" =
        .error err →
      cleanUp u s n ch = some ([.lookup root sub "TXT"], .ok ())) ∧
    (∀ rec, (n (cleanUpClientConfig apiKey)).getRecord root sub "TXT" =
        .ok rec →
      cleanUp u s n ch =
        some ([.lookup root sub "TXT", .delete root sub "TXT"],
          match (n (cleanUpClientConfig apiKey)).deleteRecord root sub "TXT"
              with
          | .ok _ => .ok ()
          | .error e => .error ("unable to delete TXT record: " ++ e))) := by
  constructor
  · intro err hg
    simp [cleanUp, h1, h2, h3, cleanUpCore, hg]
  · intro rec hg
    rcases hd : (n (cleanUpClientConfig apiKey)).deleteRecord root sub "TXT"
        with e | _
    · simp [cleanUp, h1, h2, h3, cleanUpCore, hg, hd]
    · simp [cleanUp, h1, h2, h3, cleanUpCore, hg, hd]

/-- C5 witness: absent record — `CleanUp` only looks up and succeeds. -/
theorem cleanUp_delete_behaviour_witness :
    cleanUp fixUnmarshal fixSecrets (fun _ => fixClientAbsent) fixChallenge =
      some ([.lookup "example.com" "_acme-challenge.foo" "TXT"], .ok ()) :=
  (cleanUp_delete_behaviour fixUnmarshal fixSecrets
      (fun _ => fixClientAbsent) fixChallenge
      ⟨⟨"gandi-credentials", "api-token"⟩⟩ "SECRETKEY"
      "example.com" "_acme-challenge.foo" rfl rfl rfl).1 "404" rfl

/-- C6 counterexample: `CleanUp` builds its provider client with
`Debug: true`, unlike `Present`, so the two client configurations differ
and `CleanUp` is not in non-debug mode. -/
theorem cleanUp_client_debug_counterexample :
    (cleanUpClientConfig "k").debug = true ∧
    (presentClientConfig "k").debug = false ∧
    cleanUpClientConfig "k" ≠ presentClientConfig "k" := by
  refine ⟨rfl, rfl, ?_⟩
  intro h
  exact Bool.noConfusion (congrArg ClientConfig.debug h)

/-- C6 (amended): `CleanUp` performs the same config-decoding,
credential-resolution and domain-split steps as `Present` (identical
prefix failures, identical (root, subdomain) reaching the record phase),
and both clients are built dry-run-disabled from the resolved API key —
but `Present` uses `Debug: false` while `CleanUp` uses `Debug: true`. -/
theorem cleanUp_present_same_steps (u : Unmarshal) (s : SecretStore)
    (n : NewClient) (ch : ChallengeRequest) (k : String) :
    (∀ e, loadConfig u ch.config = .error e →
      present u s n ch = some ([], .error ("unable to load config: " ++ e)) ∧
      cleanUp u s n ch = some ([], .error ("unable to load config: " ++ e))) ∧
    (∀ cfg e, loadConfig u ch.config = .ok cfg →
      getApiKey s cfg ch.resourceNamespace = .error e →
      present u s n ch = some ([], .error ("unable to get API key: " ++ e)) ∧
      cleanUp u s n ch = some ([], .error ("unable to get API key: " ++ e))) ∧
    (∀ cfg apiKey root sub, loadConfig u ch.config = .ok cfg →
      getApiKey s cfg ch.resourceNamespace = .ok apiKey →
      extractRootAndSubDomain (getDomainAndEntry ch).2
          (getDomainAndEntry ch).1 = some (root, sub, none) →
      (present u s n ch).map (fun p => p.1.head?) =
        some (some (.lookup root sub "TXT")) ∧
      (cleanUp u s n ch).map (fun p => p.1.head?) =
        some (some (.lookup root sub "TXT"))) ∧
    presentClientConfig k = ⟨k, false, false⟩ ∧
    cleanUpClientConfig k = ⟨k, true, false⟩ := by
  refine ⟨?_, ?_, ?_, rfl, rfl⟩
  · intro e hl
    exact ⟨by simp [present, hl], by simp [cleanUp, hl]⟩
  · intro cfg e hl ha
    exact ⟨by simp [present, hl, ha], by simp [cleanUp, hl, ha]⟩
  · intro cfg apiKey root sub hl ha hx
    constructor
    · simp [present, hl, ha, hx, presentCore_fst_head]
    · simp [cleanUp, hl, ha, hx, cleanUpCore_fst_head]

/-- C6 witness: the fixtures hit the record phase at (`"example.com"`,
`"_acme-challenge.foo"`) in both operations; the two client configs
evaluated at the resolved key. -/
theorem cleanUp_present_same_steps_witness :
    ((present fixUnmarshal fixSecrets (fun _ => fixClientFound)
        fixChallenge).map (fun p => p.1.head?) =
      some (some (.lookup "example.com" "_acme-challenge.foo" "TXT")) ∧
     (cleanUp fixUnmarshal fixSecrets (fun _ => fixClientFound)
        fixChallenge).map (fun p => p.1.head?) =
      some (some (.lookup "example.com" "_acme-challenge.foo" "TXT"))) ∧
    presentClientConfig "SECRETKEY" = ⟨"SECRETKEY", false, false⟩ ∧
    cleanUpClientConfig "SECRETKEY" = ⟨"SECRETKEY", true, false⟩ :=
  ⟨(cleanUp_present_same_steps fixUnmarshal fixSecrets
      (fun _ => fixClientFound) fixChallenge "SECRETKEY").2.2.1
      ⟨⟨"gandi-credentials", "api-token"⟩⟩ "SECRETKEY"
      "example.com" "_acme-challenge.foo" rfl rfl rfl,
   (cleanUp_present_same_steps fixUnmarshal fixSecrets
      (fun _ => fixClientFound) fixChallenge "SECRETKEY").2.2.2.1,
   (cleanUp_present_same_steps fixUnmarshal fixSecrets
      (fun _ => fixClientFound) fixChallenge "SECRETKEY").2.2.2.2⟩

/-- Method `Present` (when it does not panic) returns an error exactly when
config decoding, credential resolution, or the create/update provider
call fails. -/
theorem present_errored_iff (u : Unmarshal) (s : SecretStore)
    (n : NewClient) (ch : ChallengeRequest)
    (hdef : present u s n ch ≠ none) :
    runErrored (present u s n ch) = true ↔ presentFailureCause u s n ch := by
  rcases hl : loadConfig u ch.config with e | cfg
  · refine iff_of_true ?_ (Or.inl ⟨e, hl⟩)
    simp [present, hl, runErrored]
  · rcases ha : getApiKey s cfg ch.resourceNamespace with e | apiKey
    · refine iff_of_true ?_ (Or.inr (Or.inl ⟨cfg, e, hl, ha⟩))
      simp [present, hl, ha, runErrored]
    · rcases hx : extractRootAndSubDomain (getDomainAndEntry ch).2
          (getDomainAndEntry ch).1 with _ | ⟨root, sub, err⟩
      · exact absurd (by simp [present, hl, ha, hx]) hdef
      · cases extract_err_eq_none _ _ _ _ _ hx
        rcases hg : (n (presentClientConfig apiKey)).getRecord root sub "TXT"
            with le | rec
        · rcases hc : (n (presentClientConfig apiKey)).createRecord root sub
              "TXT" GandiMinTtl [ch.key] with e | o
          · refine iff_of_true ?_ (Or.inr (Or.inr
              ⟨cfg, apiKey, root, sub, hl, ha, hx,
               Or.inl ⟨⟨le, hg⟩, ⟨e, hc⟩⟩⟩))
            simp [present, hl, ha, hx, presentCore, hg, hc, runErrored]
          · refine iff_of_false ?_ ?_
            · simp [present, hl, ha, hx, presentCore, hg, hc, runErrored]
            · rintro (⟨e', he'⟩ | ⟨cfg', e', hok, hae⟩ |
                ⟨cfg', ak', r', s', hok, hak, hx', hbad⟩)
              · rw [hl] at he'
                simp at he'
              · rw [hl] at hok
                injection hok with hcfg
                subst hcfg
                rw [ha] at hae
                simp at hae
              · rw [hl] at hok
                injection hok with hcfg
                subst hcfg
                rw [ha] at hak
                injection hak with hkey
                subst hkey
                rw [hx] at hx'
                injection hx' with htrip
                simp only [Prod.mk.injEq] at htrip
                obtain ⟨hr, hs, -⟩ := htrip
                subst hr
                subst hs
                rcases hbad with ⟨⟨le', hge⟩, ⟨e', hce⟩⟩ |
                  ⟨rec', hgok, hne, ⟨e', hue⟩⟩
                · rw [hc] at hce
                  simp at hce
                · rw [hg] at hgok
                  simp at hgok
        · by_cases hv : goJoin "" rec.rrsetValues = "\"" ++ ch.key ++ "\""
          · refine iff_of_false ?_ ?_
            · simp [present, hl, ha, hx, presentCore, hg, hv, runErrored]
            · rintro (⟨e', he'⟩ | ⟨cfg', e', hok, hae⟩ |
                ⟨cfg', ak', r', s', hok, hak, hx', hbad⟩)
              · rw [hl] at he'
                simp at he'
              · rw [hl] at hok
                injection hok with hcfg
                subst hcfg
                rw [ha] at hae
                simp at hae
              · rw [hl] at hok
                injection hok with hcfg
                subst hcfg
                rw [ha] at hak
                injection hak with hkey
                subst hkey
                rw [hx] at hx'
                injection hx' with htrip
                simp only [Prod.mk.injEq] at htrip
                obtain ⟨hr, hs, -⟩ := htrip
                subst hr
                subst hs
                rcases hbad with ⟨⟨le', hge⟩, ⟨e', hce⟩⟩ |
                  ⟨rec', hgok, hne, ⟨e', hue⟩⟩
                · rw [hg] at hge
                  simp at hge
                · rw [hg] at hgok
                  injection hgok with hrec
                  subst hrec
                  exact hne hv
          · rcases hu : (n (presentClientConfig apiKey)).updateRecord root sub
                "TXT" GandiMinTtl [ch.key] with e | o
            · refine iff_of_true ?_ (Or.inr (Or.inr
                ⟨cfg, apiKey, root, sub, hl, ha, hx,
                 Or.inr ⟨rec, hg, hv, ⟨e, hu⟩⟩⟩))
              simp [present, hl, ha, hx, presentCore, hg, hv, hu, runErrored]
            · refine iff_of_false ?_ ?_
              · simp [present, hl, ha, hx, presentCore, hg, hv, hu,
                  runErrored]
              · rintro (⟨e', he'⟩ | ⟨cfg', e', hok, hae⟩ |
                  ⟨cfg', ak', r', s', hok, hak, hx', hbad⟩)
                · rw [hl] at he'
                  simp at he'
                · rw [hl] at hok
                  injection hok with hcfg
                  subst hcfg
                  rw [ha] at hae
                  simp at hae
                · rw [hl] at hok
                  injection hok with hcfg
                  subst hcfg
                  rw [ha] at hak
                  injection hak with hkey
                  subst hkey
                  rw [hx] at hx'
                  injection hx' with htrip
                  simp only [Prod.mk.injEq] at htrip
                  obtain ⟨hr, hs, -⟩ := htrip
                  subst hr
                  subst hs
                  rcases hbad with ⟨⟨le', hge⟩, ⟨e', hce⟩⟩ |
                    ⟨rec', hgok, hne, ⟨e', hue⟩⟩
                  · rw [hg] at hge
                    simp at hge
                  · rw [hu] at hue
                    simp at hue

/-- C4: when the lookup in `Present` fails, the failure is not returned:
`Present` issues exactly one create-record(root, subdomain, "TXT", 300,
[Key]) call and errors exactly when that create call fails; in general a
non-panicking `Present` returns an error if and only if config decoding,
credential resolution, or the create/update provider call fails. -/
theorem present_creates_when_absent (u : Unmarshal) (s : SecretStore)
    (n : NewClient) (ch : ChallengeRequest) (cfg : gandiDNSProviderConfig)
    (apiKey root sub err : String)
    (h1 : loadConfig u ch.config = .ok cfg)
    (h2 : getApiKey s cfg ch.resourceNamespace = .ok apiKey)
    (h3 : extractRootAndSubDomain (getDomainAndEntry ch).2
        (getDomainAndEntry ch).1 = some (root, sub, none))
    (h4 : (n (presentClientConfig apiKey)).getRecord root sub "TXT" =
        .error err) :
    present u s n ch =
      some ([.lookup root sub "TXT",
             .create root sub "TXT" GandiMinTtl [ch.key]],
        match (n (presentClientConfig apiKey)).createRecord root sub "TXT"
            GandiMinTtl [ch.key] with
        | .ok _ => .ok ()
        | .error e => .error ("unable to create TXT record: " ++ e)) ∧
    (runErrored (present u s n ch) = true ↔
      ∃ e, (n (presentClientConfig apiKey)).createRecord root sub "TXT"
          GandiMinTtl [ch.key] = .error e) ∧
    (∀ u' s' n' ch', present u' s' n' ch' ≠ none →
      (runErrored (present u' s' n' ch') = true ↔
        presentFailureCause u' s' n' ch')) := by
  refine ⟨?_, ?_, fun u' s' n' ch' hd => present_errored_iff u' s' n' ch' hd⟩
  · rcases hc : (n (presentClientConfig apiKey)).createRecord root sub "TXT"
        GandiMinTtl [ch.key] with e | o
    · simp [present, h1, h2, h3, presentCore, h4, hc]
    · simp [present, h1, h2, h3, presentCore, h4, hc]
  · rcases hc : (n (presentClientConfig apiKey)).createRecord root sub "TXT"
        GandiMinTtl [ch.key] with e | o
    · refine iff_of_true ?_ ⟨e, rfl⟩
      simp [present, h1, h2, h3, presentCore, h4, hc, runErrored]
    · refine iff_of_false ?_ ?_
      · simp [present, h1, h2, h3, presentCore, h4, hc, runErrored]
      · rintro ⟨e, hce⟩
        simp at hce

/-- C4 witness: the scenario challenge against a provider with no record —
one create call with the key, overall success. -/
theorem present_creates_when_absent_witness :
    present fixUnmarshal fixSecrets (fun _ => fixClientAbsent) fixChallenge =
      some ([.lookup "example.com" "_acme-challenge.foo" "TXT",
             .create "example.com" "_acme-challenge.foo" "TXT" 300
               ["abc123"]], .ok ()) :=
  ((present_creates_when_absent fixUnmarshal fixSecrets
      (fun _ => fixClientAbsent) fixChallenge
      ⟨⟨"gandi-credentials", "api-token"⟩⟩ "SECRETKEY"
      "example.com" "_acme-challenge.foo" "404"
      rfl rfl rfl rfl).1).trans rfl

end GandiWebhook
